import Mathlib

/-!
Verification of the pricing / ranking / CSV-import / persistence core of the
price-compare repository (source: src/utils, src/types/vendor.ts).

Modelling conventions of this shallow embedding:

* JavaScript numbers are idealised as exact rationals (`ℚ`).  Finite
  floating-point rounding error is outside the model; the claims under
  scrutiny are about exact arithmetic, ordering, rounding to 2 decimals and
  special-value propagation.  For the one claim that is about the IEEE-754
  special values NaN and ±Infinity, a second carrier `JSNum` (an extended
  rational with `nan`, `posinf`, `neginf`) is used, with the ECMAScript
  `Number::add` / `Number::multiply` special-value rules spelt out.
* `Math.round` is the ECMAScript builtin: it rounds to the nearest integer,
  ties toward +∞, i.e. `⌊x + 1/2⌋` on rationals (`jsRound` below).
* `Array.prototype.sort` with the comparator `(a, b) => a.totalPrice -
  b.totalPrice` is, for lists whose totals carry no NaN (always true in the
  rational model), required by ECMAScript 2019 to be a stable sort
  consistent with the ordering `a.totalPrice ≤ b.totalPrice`; it is modelled
  by the stable `List.mergeSort` with exactly that ordering.
* JavaScript strings are modelled as `List Char`; `String.prototype.split`
  with a one-character separator is `splitOnChar`, `String.prototype.trim`
  is `trimStr` (over the whitespace characters relevant to this code base),
  and the `parseFloat` builtin is modelled from the ECMAScript
  `parseFloat` grammar (optional sign, `Infinity`, decimal digits with
  optional fraction and exponent, longest valid prefix, NaN when no prefix
  parses).  The numeric value of a literal is taken exactly (no conversion
  to nearest double).
* `localStorage` plus `JSON.stringify` / `JSON.parse` are modelled by a
  one-key store whose value is either the serialisation of a vendor list
  (`StorageValue.jsonVendors`, with `JSON.parse` as its inverse — the
  round-trip property of the JSON builtins on plain data) or a string that
  `JSON.parse` rejects (`StorageValue.corrupt`); `try/catch` around the
  store is modelled by the `getThrows` / `setThrows` flags, and the
  `typeof window !== 'undefined'` guard by the `hasWindow` flag.
-/

namespace PriceCompare

/-- Character lists stand in for JavaScript strings wherever the code
inspects individual characters. -/
abbrev Str := List Char

/-! ### Data model (src/types/vendor.ts) -/

/-- `Vendor` record: `{ vendor, plan, fixedPrice, kwhPrice, link }`, numeric
fields as exact rationals. -/
structure Vendor where
  vendor : String
  plan : String
  fixedPrice : ℚ
  kwhPrice : ℚ
  link : String
deriving DecidableEq, Repr

/-- `PriceCalculation` record: a `Vendor` plus its computed `totalPrice`. -/
structure PriceCalculation where
  vendor : String
  plan : String
  fixedPrice : ℚ
  kwhPrice : ℚ
  totalPrice : ℚ
  link : String
deriving DecidableEq, Repr

/-- `ConsumptionLevel` record: one consumption bucket. -/
structure ConsumptionLevel where
  kwh : ℚ
  calculations : List PriceCalculation
deriving DecidableEq, Repr

/-! ### Pricing and ranking (src/utils/calculations.ts) -/

/-- The fixed consumption ladder `[100, 200, ..., 1500]`. -/
def CONSUMPTION_LEVELS : List ℚ :=
  [100, 200, 300, 400, 500, 600, 700, 800, 900, 1000, 1100, 1200, 1300, 1400, 1500]

/-- ECMAScript `Math.round`: nearest integer, ties toward +∞. -/
def jsRound (x : ℚ) : ℤ := ⌊x + 1 / 2⌋

/-- `Math.round(x * 100) / 100`, the "round to 2 decimal places" step of
`calculatePrice`. -/
def round2 (x : ℚ) : ℚ := (jsRound (x * 100) : ℚ) / 100

/-- Rounding to the nearest integer with ties away from zero.  This is NOT
what the code does; it is the rounding the specification describes
("standard round-half-away-from-zero"), defined here verbatim from the
spec's words so that the two can be compared. -/
def awayRound (x : ℚ) : ℤ := if 0 ≤ x then ⌊x + 1 / 2⌋ else ⌈x - 1 / 2⌉

/-- Round to 2 decimal places with ties away from zero — the `round2` the
specification describes, for comparison with the implemented `round2`. -/
def round2away (x : ℚ) : ℚ := (awayRound (x * 100) : ℚ) / 100

/-- `calculatePrice(vendor, kwh)`: `totalPrice` is the fixed fee plus rate
times quantity, rounded once to 2 decimal places. -/
def calculatePrice (vendor : Vendor) (kwh : ℚ) : PriceCalculation :=
  { vendor := vendor.vendor
    plan := vendor.plan
    fixedPrice := vendor.fixedPrice
    kwhPrice := vendor.kwhPrice
    totalPrice := round2 (vendor.fixedPrice + vendor.kwhPrice * kwh)
    link := vendor.link }

/-- The ordering induced by the sort comparator
`(a, b) => a.totalPrice - b.totalPrice`. -/
def priceLE (a b : PriceCalculation) : Bool := decide (a.totalPrice ≤ b.totalPrice)

/-- `calculateAllPrices(vendors, kwh)`: map `calculatePrice` over the
vendors, then sort ascending by `totalPrice` (stable, per ECMAScript 2019
`Array.prototype.sort`). -/
def calculateAllPrices (vendors : List Vendor) (kwh : ℚ) : List PriceCalculation :=
  (vendors.map (fun vendor => calculatePrice vendor kwh)).mergeSort priceLE

/-- `calculateAllConsumptionLevels(vendors)`: one bucket per ladder entry,
in ladder order. -/
def calculateAllConsumptionLevels (vendors : List Vendor) : List ConsumptionLevel :=
  CONSUMPTION_LEVELS.map (fun kwh =>
    { kwh := kwh, calculations := calculateAllPrices vendors kwh })

/-- `getDefaultVendors()`: the hardcoded 24-entry default catalog. -/
def getDefaultVendors : List Vendor :=
  [ { vendor := "ΔΕΗ", plan := "myHomeEnter", fixedPrice := 5, kwhPrice := 0.145, link := "https://www.dei.gr/el/gia-to-spiti/revma/myhome-enter/" },
    { vendor := "ΔΕΗ", plan := "myHomeEnterTwo", fixedPrice := 8, kwhPrice := 0.145, link := "https://www.dei.gr/el/gia-to-spiti/revma/myhome-entertwo/" },
    { vendor := "ΔΕΗ", plan := "myHomeOnline", fixedPrice := 3.5, kwhPrice := 0.142, link := "https://www.dei.gr/el/gia-to-spiti/revma/myhome-online/" },
    { vendor := "ΖΕΝΙΘ", plan := "Power Home Secure 3", fixedPrice := 9.9, kwhPrice := 0.106, link := "https://zenith.gr/el/for-the-home/electricity/power-home-secure-2-0/" },
    { vendor := "Φυσικό Αέριο", plan := "Home Fixed", fixedPrice := 9.9, kwhPrice := 0.139, link := "https://www.fysikoaerioellados.gr/product/reyma-home-fixed/?product-category=household&product-commodity=electric-power" },
    { vendor := "Elpedison", plan := "Heatgreen Electricity", fixedPrice := 12.9, kwhPrice := 0.088, link := "https://www.elpedison.gr/el/gia-to-spiti/revma/elpedison-heatgreen-electricity_134116/" },
    { vendor := "Elpedison", plan := "DriveGreen Electricity 2", fixedPrice := 9.9, kwhPrice := 0.0999, link := "https://www.elpedison.gr/el/gia-to-spiti/revma/elpedison-drivegreen-electricity-2_133989/" },
    { vendor := "Elpedison", plan := "Reward Zero Fee", fixedPrice := 0, kwhPrice := 0.1395, link := "https://www.elpedison.gr/el/gia-to-spiti/revma/elpedison-reward-zero-fee_134062/" },
    { vendor := "Elpedison", plan := "Bright Home", fixedPrice := 12.9, kwhPrice := 0.1299, link := "https://www.elpedison.gr/el/gia-to-spiti/revma/elpedison-bright-home_134064/" },
    { vendor := "Elpedison", plan := "Reward Maximum", fixedPrice := 12.9, kwhPrice := 0.088, link := "https://www.elpedison.gr/el/gia-to-spiti/revma/elpedison-reward-maximum_134060/" },
    { vendor := "Elpedison", plan := "Reward Ultra", fixedPrice := 9.9, kwhPrice := 0.098, link := "https://www.elpedison.gr/el/gia-to-spiti/revma/elpedison-reward-ultra_134129/" },
    { vendor := "nrg", plan := "FixedOnTime", fixedPrice := 9.9, kwhPrice := 0.1078, link := "https://www.nrg.gr/el/idiotes/revma/nrg-fixed-on-time" },
    { vendor := "nrg", plan := "FixedOnTimeAdvanced Promo", fixedPrice := 9.9, kwhPrice := 0.099, link := "https://www.nrg.gr/el/idiotes/revma/nrg-fixed-ontime-advanced-promo" },
    { vendor := "nrg", plan := "Fixed4u12M", fixedPrice := 14.9, kwhPrice := 0.115, link := "https://www.nrg.gr/el/idiotes/revma/nrg-fixed-4U-12M" },
    { vendor := "Volton", plan := "Blue12M", fixedPrice := 9.9, kwhPrice := 0.1089, link := "https://volton.gr/services/volton-blue-12m/" },
    { vendor := "ΗΡΩΝ", plan := "Blue Generous", fixedPrice := 9.9, kwhPrice := 0.09845, link := "https://www.heron.gr/energy/electricity/gia-to-spiti/blue-generous-home/" },
    { vendor := "ΗΡΩΝ", plan := "Blue Generous Max Home", fixedPrice := 9.9, kwhPrice := 0.0945, link := "https://heron.gr/energy/electricity/gia-to-spiti/blue-generous-max-home/" },
    { vendor := "Ελίν", plan := "Power On! Blue Now", fixedPrice := 9.9, kwhPrice := 0.1099, link := "https://energy.elin.gr/ilektriki-energeia-new/gia-to-spiti-ilektriko-reyma-on/power-on-bluenow12-18-24/" },
    { vendor := "Ελίν", plan := "Power On! Blue Now +", fixedPrice := 15.9, kwhPrice := 0.0899, link := "https://energy.elin.gr/ilektriki-energeia-new/gia-to-spiti-ilektriko-reyma-on/power-on-blue-12m/" },
    { vendor := "Eunice", plan := "Home Fair II", fixedPrice := 4, kwhPrice := 0.16, link := "https://eunice-power.gr/hlektrikh-energeia/gia-to-spiti/eunice-home-fair-ii/" },
    { vendor := "Eunice", plan := "Home Edge", fixedPrice := 7, kwhPrice := 0.098, link := "https://eunice-power.gr/hlektrikh-energeia/gia-to-spiti/eunice-home-edge/" },
    { vendor := "Protergia", plan := "Οικιακό Ρεύμα 1 Value Secure 12M", fixedPrice := 9.9, kwhPrice := 0.099, link := "https://www.protergia.gr/spiti/oikiako-reuma-proionta/protergia-oikiako-value-secure-12m/" },
    { vendor := "Protergia", plan := "Value For Family", fixedPrice := 9.9, kwhPrice := 0.141, link := "https://www.protergia.gr/spiti/oikiako-reuma-proionta/protergia-oikiako-value-4family/" },
    { vendor := "Protergia", plan := "Protergia Οικιακό Value Safe More", fixedPrice := 9.9, kwhPrice := 0.125, link := "https://www.protergia.gr/spiti/oikiako-reuma-proionta/protergia-oikiako-value-safe-more/" } ]

/-! ### Extended-rational carrier for the IEEE-754 special values

Used for the claim about NaN / ±Infinity propagation through
`calculatePrice`.  Finite arithmetic is exact; the `nan` / `posinf` /
`neginf` cases follow the ECMAScript `Number::add`, `Number::multiply`
and `Math.round` special-value rules. -/

/-- A JavaScript number as far as special-value propagation is concerned:
NaN, +Infinity, -Infinity, or a finite value (taken exactly). -/
inductive JSNum where
  | nan : JSNum
  | posinf : JSNum
  | neginf : JSNum
  | finite (val : ℚ) : JSNum
deriving DecidableEq, Repr

/-- ECMAScript `Number::add` on the extended carrier. -/
def jsAdd : JSNum → JSNum → JSNum
  | .nan, _ => .nan
  | _, .nan => .nan
  | .posinf, .neginf => .nan
  | .neginf, .posinf => .nan
  | .posinf, _ => .posinf
  | _, .posinf => .posinf
  | .neginf, _ => .neginf
  | _, .neginf => .neginf
  | .finite a, .finite b => .finite (a + b)

/-- ECMAScript `Number::multiply` on the extended carrier (`0 * ±∞ = NaN`). -/
def jsMul : JSNum → JSNum → JSNum
  | .nan, _ => .nan
  | _, .nan => .nan
  | .posinf, .posinf => .posinf
  | .posinf, .neginf => .neginf
  | .neginf, .posinf => .neginf
  | .neginf, .neginf => .posinf
  | .posinf, .finite b => if 0 < b then .posinf else if b < 0 then .neginf else .nan
  | .finite a, .posinf => if 0 < a then .posinf else if a < 0 then .neginf else .nan
  | .neginf, .finite b => if 0 < b then .neginf else if b < 0 then .posinf else .nan
  | .finite a, .neginf => if 0 < a then .neginf else if a < 0 then .posinf else .nan
  | .finite a, .finite b => .finite (a * b)

/-- `Math.round(x * 100) / 100` on the extended carrier: `Math.round` maps
NaN to NaN and ±∞ to ±∞, and the subsequent division by 100 preserves the
special values. -/
def jsRound2Num : JSNum → JSNum
  | .nan => .nan
  | .posinf => .posinf
  | .neginf => .neginf
  | .finite q => .finite (round2 q)

/-- `Vendor` with its numeric fields in the extended carrier. -/
structure NumVendor where
  vendor : String
  plan : String
  fixedPrice : JSNum
  kwhPrice : JSNum
  link : String
deriving DecidableEq, Repr

/-- `PriceCalculation` with its numeric fields in the extended carrier. -/
structure NumPriceCalculation where
  vendor : String
  plan : String
  fixedPrice : JSNum
  kwhPrice : JSNum
  totalPrice : JSNum
  link : String
deriving DecidableEq, Repr

/-- `calculatePrice` over the extended carrier: the same computation as
`calculatePrice`, with the host arithmetic's special-value behaviour made
explicit.  It is a total function: no input is rejected. -/
def calculatePriceNum (vendor : NumVendor) (kwh : JSNum) : NumPriceCalculation :=
  { vendor := vendor.vendor
    plan := vendor.plan
    fixedPrice := vendor.fixedPrice
    kwhPrice := vendor.kwhPrice
    totalPrice := jsRound2Num (jsAdd vendor.fixedPrice (jsMul vendor.kwhPrice kwh))
    link := vendor.link }

/-! ### Persistence adapter (src/utils/storage.ts)

`saveVendorsToStorage` / `loadVendorsFromStorage` over `localStorage`,
key `"customVendors"`.  The store holds, under that single key, either
nothing, the `JSON.stringify` image of a vendor list (which `JSON.parse`
maps back to the list — the round-trip guarantee of the JSON builtins on
plain data), or a string `JSON.parse` throws on. -/

/-- A value stored under the `"customVendors"` key. -/
inductive StorageValue where
  | jsonVendors (vendors : List Vendor) : StorageValue
  | corrupt : StorageValue
deriving DecidableEq, Repr

/-- The browser environment seen by the persistence adapter: whether
`window` exists, the current value under the `"customVendors"` key, and
whether `localStorage.getItem` / `localStorage.setItem` throw. -/
structure BrowserStore where
  hasWindow : Bool
  customVendors : Option StorageValue
  getThrows : Bool
  setThrows : Bool
deriving DecidableEq, Repr

/-- `saveVendorsToStorage(vendors)`: under the `window` guard, writes
`JSON.stringify(vendors)` wholesale under the fixed key; a throwing
`setItem` is caught (`console.warn`) and leaves the store unchanged.  The
function itself never throws (it is total). -/
def saveVendorsToStorage (vendors : List Vendor) (st : BrowserStore) : BrowserStore :=
  if st.hasWindow then
    if st.setThrows then st
    else { st with customVendors := some (.jsonVendors vendors) }
  else st

/-- `loadVendorsFromStorage()`: under the `window` guard, reads the fixed
key; a `null` (absent) value yields `[]`, a value `JSON.parse` throws on is
caught and yields `[]`, and a throwing `getItem` is caught and yields `[]`.
The function itself never throws (it is total). -/
def loadVendorsFromStorage (st : BrowserStore) : List Vendor :=
  if st.hasWindow then
    if st.getThrows then []
    else
      match st.customVendors with
      | some (.jsonVendors vendors) => vendors
      | some .corrupt => []
      | none => []
  else []

/-! ### String primitives used by the parser (host builtins) -/

/-- Whitespace removed by `String.prototype.trim` (the characters relevant
to this code base: space, tab, newline, carriage return). -/
def isJSSpace (c : Char) : Bool := c = ' ' || c = '\t' || c = '\n' || c = '\r'

/-- `String.prototype.trim`: drop leading and trailing whitespace. -/
def trimStr (s : Str) : Str :=
  (((s.dropWhile isJSSpace).reverse.dropWhile isJSSpace).reverse)

/-- `String.prototype.split` with a one-character separator: splits at every
occurrence; the empty string splits to `[""]`, and adjacent separators
produce empty fields. -/
def splitOnChar (sep : Char) : Str → List Str
  | [] => [[]]
  | c :: cs =>
    if c = sep then [] :: splitOnChar sep cs
    else
      match splitOnChar sep cs with
      | [] => [[c]]
      | r :: rs => (c :: r) :: rs

/-- Numeric value of a digit sequence, most significant first. -/
def digitsToNat (s : Str) : ℕ := s.foldl (fun n c => 10 * n + (c.toNat - 48)) 0

/-- Outcome of the ECMAScript `parseFloat` grammar on a string: no valid
prefix (NaN), a signed `Infinity`, or a signed decimal literal with
`mant` the digits of the integer and fractional parts run together,
`fracLen` the number of fractional digits, and `e` the exponent. -/
inductive FloatParse where
  | nan : FloatParse
  | infinite (neg : Bool) : FloatParse
  | lit (neg : Bool) (mant fracLen : ℕ) (e : ℤ) : FloatParse
deriving DecidableEq, Repr

/-- Consume an optional leading sign; `true` means negative. -/
def parseSign : Str → Bool × Str
  | '-' :: r => (true, r)
  | '+' :: r => (false, r)
  | s => (false, s)

/-- Value of an exponent part after the `e`/`E` marker: an optional sign
and digits.  Without at least one digit the exponent part is not part of
the literal, leaving the exponent at 0. -/
def expPart (s : Str) : ℤ :=
  let signed := parseSign s
  let d := signed.2.takeWhile Char.isDigit
  if d.isEmpty then 0
  else if signed.1 then -(digitsToNat d : ℤ) else (digitsToNat d : ℤ)

/-- The ECMAScript `parseFloat` grammar: skip whitespace, optional sign,
then either `Infinity` or a decimal literal (digits, optional fraction,
optional exponent), taking the longest valid prefix; anything else is NaN. -/
def parseFloatCore (s : Str) : FloatParse :=
  let signed := parseSign (s.dropWhile isJSSpace)
  let neg := signed.1
  let s1 := signed.2
  if "Infinity".data.isPrefixOf s1 then .infinite neg
  else
    let d1 := s1.takeWhile Char.isDigit
    let r1 := s1.dropWhile Char.isDigit
    let fracRest : Str × Str :=
      match r1 with
      | '.' :: t => (t.takeWhile Char.isDigit, t.dropWhile Char.isDigit)
      | _ => ([], r1)
    let d2 := fracRest.1
    let r2 := fracRest.2
    if d1.isEmpty && d2.isEmpty then .nan
    else
      let e : ℤ :=
        match r2 with
        | 'e' :: t => expPart t
        | 'E' :: t => expPart t
        | _ => 0
      .lit neg (digitsToNat (d1 ++ d2)) d2.length e

/-- Exact numeric value of a decimal literal (the host would take the
nearest double; the model takes the value exactly). -/
def litVal (neg : Bool) (mant fracLen : ℕ) (e : ℤ) : ℚ :=
  (if neg then -1 else 1) * (mant : ℚ) / 10 ^ fracLen * (10 : ℚ) ^ e

/-- The `parseFloat` builtin: NaN, ±Infinity, or the literal's value. -/
def parseFloat (s : Str) : JSNum :=
  match parseFloatCore s with
  | .nan => .nan
  | .infinite neg => if neg then .neginf else .posinf
  | .lit neg mant fracLen e => .finite (litVal neg mant fracLen e)

/-! ### CSV parser (src/utils/csvParser.ts / parseCSVData) -/

/-- A vendor record as produced by the CSV parser: the `Vendor` shape with
strings as character lists and numeric fields in the extended carrier
(`parseFloat` can produce ±Infinity). -/
structure CSVVendor where
  vendor : Str
  plan : Str
  fixedPrice : JSNum
  kwhPrice : JSNum
  link : Str
deriving DecidableEq, Repr

/-- Error message thrown for a header or row with fewer than 5 fields. -/
def invalidColumnsMsg : String := "Invalid CSV format: expected at least 5 columns"

/-- Error message thrown when `fixedPrice` or `kwhPrice` parses to NaN. -/
def invalidNumberMsg : String := "Invalid numeric values in CSV"

/-- The body of the `map` over data rows in `parseCSVData`: split the line
on commas, require at least 5 fields, parse fields 2 and 3 as numbers
(trimmed), reject NaN, and build the record from the trimmed first five
fields (later fields are ignored).  `getD` stands for JavaScript indexing,
which the length guard keeps within bounds. -/
def parseRow (line : Str) : Except String CSVVendor :=
  let values := splitOnChar ',' line
  if values.length < 5 then .error invalidColumnsMsg
  else
    let fixedPrice := parseFloat (trimStr (values.getD 2 []))
    let kwhPrice := parseFloat (trimStr (values.getD 3 []))
    if fixedPrice = .nan ∨ kwhPrice = .nan then .error invalidNumberMsg
    else
      .ok { vendor := trimStr (values.getD 0 [])
            plan := trimStr (values.getD 1 [])
            fixedPrice := fixedPrice
            kwhPrice := kwhPrice
            link := trimStr (values.getD 4 []) }

/-- `Array.prototype.map` whose callback can throw: left to right, the
first exception aborts the whole call. -/
def parseRows : List Str → Except String (List CSVVendor)
  | [] => .ok []
  | line :: rest =>
    match parseRow line with
    | .error e => .error e
    | .ok v =>
      match parseRows rest with
      | .error e => .error e
      | .ok vs => .ok (v :: vs)

/-- `parseCSVData(csvText)`: trim the whole document, split into lines,
check the header's column count, then map `parseRow` over the remaining
lines.  `headD` stands for `lines[0]`, in bounds because splitting never
returns an empty list. -/
def parseCSVData (csvText : Str) : Except String (List CSVVendor) :=
  let lines := splitOnChar '\n' (trimStr csvText)
  let headers := splitOnChar ',' (lines.headD [])
  if headers.length < 5 then .error invalidColumnsMsg
  else parseRows (lines.drop 1)

/-! ### Derived views of a CSV document, used to state the parser claims -/

/-- The lines of the trimmed document. -/
abbrev docLines (csvText : Str) : List Str := splitOnChar '\n' (trimStr csvText)

/-- The data rows: every line after the header. -/
abbrev dataLines (csvText : Str) : List Str := (docLines csvText).drop 1

/-- The comma-separated fields of one row. -/
abbrev rowValues (line : Str) : List Str := splitOnChar ',' line

/-- The header has fewer than 5 fields. -/
abbrev headerShort (csvText : Str) : Prop :=
  (splitOnChar ',' ((docLines csvText).headD [])).length < 5

/-- The row has fewer than 5 fields. -/
abbrev rowShort (line : Str) : Prop := (rowValues line).length < 5

/-- The row's `fixedPrice` or `kwhPrice` field parses to NaN. -/
abbrev rowNaN (line : Str) : Prop :=
  parseFloat (trimStr ((rowValues line).getD 2 [])) = .nan ∨
  parseFloat (trimStr ((rowValues line).getD 3 [])) = .nan

/-- The record a well-formed row yields: the five fields taken
positionally, each trimmed; fields beyond the fifth ignored. -/
def extractRow (line : Str) : CSVVendor :=
  { vendor := trimStr ((rowValues line).getD 0 [])
    plan := trimStr ((rowValues line).getD 1 [])
    fixedPrice := parseFloat (trimStr ((rowValues line).getD 2 []))
    kwhPrice := parseFloat (trimStr ((rowValues line).getD 3 []))
    link := trimStr ((rowValues line).getD 4 []) }

end PriceCompare

deriving instance DecidableEq for Except

namespace PriceCompare

/-! ## Theorems -/

/-! ### Persistence adapter -/

/-- C4: on a working store (window present, neither store operation
throwing), `load()` after `save(S)` returns a sequence equal to `S`, and
`save` writes the serialised sequence wholesale under the single
`"customVendors"` key, replacing any prior value.  Since `S` is arbitrary
this includes `S = []`. -/
theorem saveVendorsToStorage_roundtrip (vendors : List Vendor) (st : BrowserStore)
    (hw : st.hasWindow = true) (hset : st.setThrows = false) (hget : st.getThrows = false) :
    loadVendorsFromStorage (saveVendorsToStorage vendors st) = vendors ∧
    (saveVendorsToStorage vendors st).customVendors = some (.jsonVendors vendors) := by
  simp [saveVendorsToStorage, loadVendorsFromStorage, hw, hset, hget]

/-- Witness for C4: the round-trip holds at the empty list over a concrete
store that previously held a corrupt value. -/
theorem saveVendorsToStorage_roundtrip_witness :
    loadVendorsFromStorage
      (saveVendorsToStorage [] ⟨true, some StorageValue.corrupt, false, false⟩) = [] ∧
    (saveVendorsToStorage [] ⟨true, some StorageValue.corrupt, false, false⟩).customVendors =
      some (.jsonVendors []) :=
  saveVendorsToStorage_roundtrip [] ⟨true, some StorageValue.corrupt, false, false⟩ rfl rfl rfl

/-- C5: the persistence adapter is fail-open.  `load()` is a total function
(it cannot raise) and returns `[]` when the key is absent, when the stored
value fails to decode, and when the underlying read throws; `save(S)` is a
total function and leaves the store untouched when the underlying write
throws. -/
theorem loadVendorsFromStorage_fail_open (vendors : List Vendor) (st : BrowserStore) :
    (st.customVendors = none → loadVendorsFromStorage st = []) ∧
    (st.customVendors = some .corrupt → loadVendorsFromStorage st = []) ∧
    (st.getThrows = true → loadVendorsFromStorage st = []) ∧
    (st.setThrows = true → saveVendorsToStorage vendors st = st) := by
  refine ⟨fun h => ?_, fun h => ?_, fun h => ?_, fun h => ?_⟩ <;>
    simp [loadVendorsFromStorage, saveVendorsToStorage, h]

/-- Witness for C5: each failure mode evaluated on a concrete store. -/
theorem loadVendorsFromStorage_fail_open_witness :
    loadVendorsFromStorage ⟨true, none, false, false⟩ = [] ∧
    loadVendorsFromStorage ⟨true, some StorageValue.corrupt, false, false⟩ = [] ∧
    loadVendorsFromStorage ⟨true, some (.jsonVendors getDefaultVendors), true, false⟩ = [] ∧
    saveVendorsToStorage [] ⟨true, some StorageValue.corrupt, false, true⟩ =
      ⟨true, some StorageValue.corrupt, false, true⟩ :=
  ⟨(loadVendorsFromStorage_fail_open [] _).1 rfl,
   (loadVendorsFromStorage_fail_open [] _).2.1 rfl,
   (loadVendorsFromStorage_fail_open [] _).2.2.1 rfl,
   (loadVendorsFromStorage_fail_open [] _).2.2.2 rfl⟩

/-! ### Default catalog -/

/-- C9: `getDefaultVendors` is a constant function of no arguments (so it
returns the same sequence on every call); the sequence has exactly 24
entries, in the fixed order recorded here by its vendor-name column. -/
theorem getDefaultVendors_catalog :
    getDefaultVendors.length = 24 ∧
    getDefaultVendors.map (fun v => v.vendor) =
      ["ΔΕΗ", "ΔΕΗ", "ΔΕΗ", "ΖΕΝΙΘ", "Φυσικό Αέριο", "Elpedison", "Elpedison", "Elpedison",
       "Elpedison", "Elpedison", "Elpedison", "nrg", "nrg", "nrg", "Volton", "ΗΡΩΝ", "ΗΡΩΝ",
       "Ελίν", "Ελίν", "Eunice", "Eunice", "Protergia", "Protergia", "Protergia"] :=
  ⟨rfl, rfl⟩

/-! ### Ranking engine -/

/-- The sort comparator is transitive. -/
theorem priceLE_trans (a b c : PriceCalculation) :
    priceLE a b → priceLE b c → priceLE a c := by
  simp only [priceLE, decide_eq_true_eq]
  exact le_trans

/-- The sort comparator is total. -/
theorem priceLE_total (a b : PriceCalculation) : priceLE a b || priceLE b a := by
  simp only [priceLE, Bool.or_eq_true, decide_eq_true_eq]
  exact le_total _ _

/-- C2: `calculateAllPrices vendors kwh` is the stable ascending sort by
`totalPrice` of the priced plans: it is a permutation of the mapped list,
it is sorted non-decreasingly by `totalPrice`, priced plans of any one
`totalPrice` value keep the relative order their vendors had in the input
(stability, stated as filter-invariance at every total), and the empty
input yields the empty output.  The rational model carries no NaN, so the
claim's non-NaN proviso holds throughout. -/
theorem calculateAllPrices_ranking (vendors : List Vendor) (kwh : ℚ) :
    List.Perm (calculateAllPrices vendors kwh)
      (vendors.map (fun v => calculatePrice v kwh)) ∧
    List.Pairwise (fun a b => a.totalPrice ≤ b.totalPrice) (calculateAllPrices vendors kwh) ∧
    (∀ c : ℚ,
      (calculateAllPrices vendors kwh).filter (fun x => decide (x.totalPrice = c)) =
        (vendors.map (fun v => calculatePrice v kwh)).filter
          (fun x => decide (x.totalPrice = c))) ∧
    calculateAllPrices [] kwh = [] := by
  simp only [calculateAllPrices]
  refine ⟨List.mergeSort_perm _ priceLE, ?_, ?_, by simp⟩
  · exact (List.sorted_mergeSort priceLE_trans priceLE_total _).imp
      (fun h => by simpa [priceLE, decide_eq_true_eq] using h)
  · intro c
    have hpw : ((vendors.map (fun v => calculatePrice v kwh)).filter
        (fun x => decide (x.totalPrice = c))).Pairwise (fun a b => priceLE a b) := by
      refine List.pairwise_of_forall_mem_list ?_
      intro x hx y hy
      have hx2 := (List.mem_filter.mp hx).2
      have hy2 := (List.mem_filter.mp hy).2
      simp only [decide_eq_true_eq] at hx2 hy2
      simp [priceLE, hx2, hy2]
    have hsub := List.sublist_mergeSort priceLE_trans priceLE_total hpw
      (List.filter_sublist (vendors.map (fun v => calculatePrice v kwh)))
    have hsub2 := hsub.filter (fun x => decide (x.totalPrice = c))
    rw [List.filter_filter] at hsub2
    simp only [Bool.and_self] at hsub2
    have hlen := ((List.mergeSort_perm (vendors.map (fun v => calculatePrice v kwh)) priceLE).filter
      (fun x => decide (x.totalPrice = c))).length_eq
    exact (hsub2.eq_of_length hlen.symm).symm

/-! ### Multi-level aggregation -/

/-- C6: `calculateAllConsumptionLevels vendors` has exactly 15 buckets,
their quantities are the ladder values 100, 200, ..., 1500 in ladder
order, and each bucket's ranked list is exactly `calculateAllPrices` at
that bucket's quantity (so no bucket depends on any other level). -/
theorem calculateAllConsumptionLevels_buckets (vendors : List Vendor) :
    (calculateAllConsumptionLevels vendors).length = 15 ∧
    (calculateAllConsumptionLevels vendors).map (fun b => b.kwh) = CONSUMPTION_LEVELS ∧
    CONSUMPTION_LEVELS =
      [100, 200, 300, 400, 500, 600, 700, 800, 900, 1000, 1100, 1200, 1300, 1400, 1500] ∧
    ∀ b ∈ calculateAllConsumptionLevels vendors,
      b.calculations = calculateAllPrices vendors b.kwh := by
  refine ⟨by simp [calculateAllConsumptionLevels, CONSUMPTION_LEVELS], ?_, rfl, ?_⟩
  · simp [calculateAllConsumptionLevels, Function.comp_def]
  · intro b hb
    simp only [calculateAllConsumptionLevels, List.mem_map] at hb
    obtain ⟨k, -, rfl⟩ := hb
    rfl

/-! ### Structured-text parser -/

/-- A row with fewer than 5 fields is rejected with the column-count
error. -/
theorem parseRow_short {line : Str} (h : rowShort line) :
    parseRow line = .error invalidColumnsMsg := by
  simp only [parseRow]
  rw [if_pos h]

/-- A row with enough fields whose `fixedPrice` or `kwhPrice` parses to NaN
is rejected with the numeric error. -/
theorem parseRow_nan {line : Str} (h1 : ¬ rowShort line) (h2 : rowNaN line) :
    parseRow line = .error invalidNumberMsg := by
  simp only [parseRow]
  rw [if_neg h1, if_pos h2]

/-- A row with enough fields and two numeric fields yields exactly the
record of its trimmed first five fields. -/
theorem parseRow_ok {line : Str} (h1 : ¬ rowShort line) (h2 : ¬ rowNaN line) :
    parseRow line = .ok (extractRow line) := by
  simp only [parseRow, extractRow]
  rw [if_neg h1, if_neg h2]

/-- Any row-level error is one of the two messages, with the matching
cause (the column check runs first). -/
theorem parseRow_error {line : Str} {e : String} (h : parseRow line = .error e) :
    (e = invalidColumnsMsg ∧ rowShort line) ∨
      (e = invalidNumberMsg ∧ ¬ rowShort line ∧ rowNaN line) := by
  by_cases h1 : rowShort line
  · rw [parseRow_short h1] at h
    exact Or.inl ⟨(Except.error.inj h).symm, h1⟩
  · by_cases h2 : rowNaN line
    · rw [parseRow_nan h1 h2] at h
      exact Or.inr ⟨(Except.error.inj h).symm, h1, h2⟩
    · rw [parseRow_ok h1 h2] at h
      exact absurd h (by simp)

/-- Mapping `parseRow` over rows that are all well-formed returns all their
records, in row order. -/
theorem parseRows_ok {rows : List Str} (h : ∀ l ∈ rows, ¬ rowShort l ∧ ¬ rowNaN l) :
    parseRows rows = .ok (rows.map extractRow) := by
  induction rows with
  | nil => rfl
  | cons line rest ih =>
    have hl := h line (List.mem_cons_self line rest)
    simp only [parseRows, parseRow_ok hl.1 hl.2,
      ih (fun l hl2 => h l (List.mem_cons_of_mem _ hl2)), List.map_cons]

/-- An erroring `parseRows` owes its error to some row. -/
theorem parseRows_error_mem {rows : List Str} {e : String}
    (h : parseRows rows = .error e) : ∃ l ∈ rows, parseRow l = .error e := by
  induction rows with
  | nil => exact absurd h (by simp [parseRows])
  | cons line rest ih =>
    rcases hE : parseRow line with e0 | v
    · simp only [parseRows, hE] at h
      exact ⟨line, List.mem_cons_self line rest, by rw [hE, Except.error.inj h]⟩
    · simp only [parseRows, hE] at h
      rcases hR : parseRows rest with e1 | vs
      · rw [hR] at h
        obtain ⟨l, hm, he⟩ := ih (by rw [hR, Except.error.inj h])
        exact ⟨l, List.mem_cons_of_mem _ hm, he⟩
      · rw [hR] at h
        exact absurd h (by simp)

/-- `parseRows` succeeds exactly when every row is well-formed: one bad row
aborts the whole call, and no prefix of records survives. -/
theorem parseRows_isOk_iff {rows : List Str} :
    (parseRows rows).isOk = true ↔ ∀ l ∈ rows, ¬ rowShort l ∧ ¬ rowNaN l := by
  induction rows with
  | nil => simp [parseRows, Except.isOk, Except.toBool]
  | cons line rest ih =>
    rcases hE : parseRow line with e0 | v
    · simp only [parseRows, hE]
      constructor
      · intro h
        exact absurd h (by simp [Except.isOk, Except.toBool])
      · intro hall
        have hl := hall line (List.mem_cons_self line rest)
        rw [parseRow_ok hl.1 hl.2] at hE
        exact absurd hE (by simp)
    · have hline : ¬ rowShort line ∧ ¬ rowNaN line := by
        by_cases h1 : rowShort line
        · rw [parseRow_short h1] at hE
          exact absurd hE (by simp)
        · by_cases h2 : rowNaN line
          · rw [parseRow_nan h1 h2] at hE
            exact absurd hE (by simp)
          · exact ⟨h1, h2⟩
      rcases hR : parseRows rest with e1 | vs
      · simp only [parseRows, hE, hR]
        constructor
        · intro h
          exact absurd h (by simp [Except.isOk, Except.toBool])
        · intro hall
          have hok : (parseRows rest).isOk = true :=
            ih.mpr (fun l hm => hall l (List.mem_cons_of_mem _ hm))
          rw [hR] at hok
          exact absurd hok (by simp [Except.isOk, Except.toBool])
      · simp only [parseRows, hE, hR]
        constructor
        · intro h l hm
          rcases List.mem_cons.mp hm with hq | hm2
          · rw [hq]
            exact hline
          · exact (ih.mp (by rw [hR]; rfl)) l hm2
        · intro hall
          rfl

/-- When every row that could error is short (any NaN row is also short),
an existing short row forces the column-count error. -/
theorem parseRows_error_tooFew {rows : List Str}
    (hall : ∀ l ∈ rows, rowShort l ∨ ¬ rowNaN l)
    (hex : ∃ l ∈ rows, rowShort l ∨ rowNaN l) :
    parseRows rows = .error invalidColumnsMsg := by
  rcases hP : parseRows rows with e | vs
  · obtain ⟨l, hm, he⟩ := parseRows_error_mem hP
    rcases parseRow_error he with ⟨he1, -⟩ | ⟨-, hns, hnan⟩
    · rw [he1]
    · exact absurd hnan ((hall l hm).resolve_left hns)
  · obtain ⟨l, hm, hbad⟩ := hex
    have hgood := parseRows_isOk_iff.mp (by rw [hP]; rfl) l hm
    rcases hbad with hs | hn
    · exact absurd hs hgood.1
    · exact absurd hn hgood.2

/-- When no row is short, an existing NaN row forces the numeric error. -/
theorem parseRows_error_invalidNum {rows : List Str}
    (hall : ∀ l ∈ rows, ¬ rowShort l)
    (hex : ∃ l ∈ rows, rowNaN l) :
    parseRows rows = .error invalidNumberMsg := by
  rcases hP : parseRows rows with e | vs
  · obtain ⟨l, hm, he⟩ := parseRows_error_mem hP
    rcases parseRow_error he with ⟨-, hs⟩ | ⟨he2, -, -⟩
    · exact absurd hs (hall l hm)
    · rw [he2]
  · obtain ⟨l, hm, hn⟩ := hex
    exact absurd hn (parseRows_isOk_iff.mp (by rw [hP]; rfl) l hm).2

/-- A short header aborts the parse before any row is read. -/
theorem parseCSVData_header_short {csvText : Str} (h : headerShort csvText) :
    parseCSVData csvText = .error invalidColumnsMsg := by
  simp only [parseCSVData]
  rw [if_pos h]

/-- With an adequate header, the parse is the row-by-row map over the data
lines. -/
theorem parseCSVData_eq_parseRows {csvText : Str} (h : ¬ headerShort csvText) :
    parseCSVData csvText = parseRows (dataLines csvText) := by
  simp only [parseCSVData]
  rw [if_neg h]

/-- Dropping a leading whitespace character does not change the trim. -/
theorem trimStr_cons (c : Char) (s : Str) (h : isJSSpace c = true) :
    trimStr (c :: s) = trimStr s := by
  simp [trimStr, List.dropWhile_cons, h]

/-- Dropping a trailing whitespace character does not change the trim. -/
theorem trimStr_append (c : Char) (s : Str) (h : isJSSpace c = true) :
    trimStr (s ++ [c]) = trimStr s := by
  rcases hD : s.dropWhile isJSSpace with _ | ⟨a, t⟩
  · simp [trimStr, List.dropWhile_append, hD, h, List.dropWhile_cons]
  · simp [trimStr, List.dropWhile_append, hD, h, List.dropWhile_cons]

/-- C3 (amended): the parse never returns records for a document with a bad
row — it succeeds exactly when the header and every data row have at least
5 fields and every row's `fixedFee` / `unitRate` field (trimmed) parses to
a number at all (NaN aborts; a non-finite parse such as `Infinity` is
accepted).  Every error is one of the two messages; the column message
implies a short header or a short row, and the numeric message implies a
NaN row; conversely a short header forces the column error, a short row
forces it when no row is NaN-only, and a NaN row forces the numeric error
when no row is short. -/
theorem parseCSVData_error_taxonomy (doc : Str) :
    (headerShort doc → parseCSVData doc = .error invalidColumnsMsg) ∧
    ((parseCSVData doc).isOk = true ↔
      ¬ headerShort doc ∧ ∀ l ∈ dataLines doc, ¬ rowShort l ∧ ¬ rowNaN l) ∧
    (∀ e, parseCSVData doc = .error e → e = invalidColumnsMsg ∨ e = invalidNumberMsg) ∧
    (parseCSVData doc = .error invalidColumnsMsg →
      headerShort doc ∨ ∃ l ∈ dataLines doc, rowShort l) ∧
    (parseCSVData doc = .error invalidNumberMsg →
      ∃ l ∈ dataLines doc, ¬ rowShort l ∧ rowNaN l) ∧
    (¬ headerShort doc → (∀ l ∈ dataLines doc, ¬ rowNaN l) →
      (∃ l ∈ dataLines doc, rowShort l) → parseCSVData doc = .error invalidColumnsMsg) ∧
    (¬ headerShort doc → (∀ l ∈ dataLines doc, ¬ rowShort l) →
      (∃ l ∈ dataLines doc, rowNaN l) → parseCSVData doc = .error invalidNumberMsg) := by
  refine ⟨parseCSVData_header_short, ?_, ?_, ?_, ?_, ?_, ?_⟩
  · by_cases hH : headerShort doc
    · rw [parseCSVData_header_short hH]
      constructor
      · intro h
        exact absurd h (by simp [Except.isOk, Except.toBool])
      · intro hc
        exact absurd hH hc.1
    · rw [parseCSVData_eq_parseRows hH, parseRows_isOk_iff]
      constructor
      · intro h
        exact ⟨hH, h⟩
      · intro h
        exact h.2
  · intro e h
    by_cases hH : headerShort doc
    · rw [parseCSVData_header_short hH] at h
      exact Or.inl (Except.error.inj h).symm
    · rw [parseCSVData_eq_parseRows hH] at h
      obtain ⟨l, -, he⟩ := parseRows_error_mem h
      rcases parseRow_error he with ⟨he1, -⟩ | ⟨he2, -⟩
      · exact Or.inl he1
      · exact Or.inr he2
  · intro h
    by_cases hH : headerShort doc
    · exact Or.inl hH
    · rw [parseCSVData_eq_parseRows hH] at h
      obtain ⟨l, hm, he⟩ := parseRows_error_mem h
      rcases parseRow_error he with ⟨-, hs⟩ | ⟨he2, -⟩
      · exact Or.inr ⟨l, hm, hs⟩
      · exact absurd he2 (by decide)
  · intro h
    by_cases hH : headerShort doc
    · rw [parseCSVData_header_short hH] at h
      exact absurd (Except.error.inj h) (by decide)
    · rw [parseCSVData_eq_parseRows hH] at h
      obtain ⟨l, hm, he⟩ := parseRows_error_mem h
      rcases parseRow_error he with ⟨he1, -⟩ | ⟨-, hns, hnan⟩
      · exact absurd he1 (by decide)
      · exact ⟨l, hm, hns, hnan⟩
  · intro hH hall hex
    rw [parseCSVData_eq_parseRows hH]
    obtain ⟨l, hm, hs⟩ := hex
    exact parseRows_error_tooFew (fun l2 hm2 => Or.inr (hall l2 hm2)) ⟨l, hm, Or.inl hs⟩
  · intro hH hall hex
    rw [parseCSVData_eq_parseRows hH]
    exact parseRows_error_invalidNum hall hex

/-- Counterexample to C3 as stated: in the document whose one data row has
`Infinity` in the `fixedFee` column, that field does not parse to a finite
number (its best-effort parse is +Infinity), yet the parse succeeds
instead of raising the numeric `FormatError`. -/
theorem parseCSVData_infinity_counterexample :
    (parseCSVData "a,b,c,d,e\nv,p,Infinity,2,l".data).isOk = true ∧
    parseFloat (trimStr ((rowValues "v,p,Infinity,2,l".data).getD 2 [])) = .posinf :=
  ⟨by decide, by decide⟩

/-- Witness for C3: a document whose single data row has a non-numeric
`fixedFee` field is rejected whole with the numeric error message. -/
theorem parseCSVData_error_taxonomy_witness :
    parseCSVData "a,b,c,d,e\nv,p,xx,1,l".data = .error invalidNumberMsg :=
  (parseCSVData_error_taxonomy "a,b,c,d,e\nv,p,xx,1,l".data).2.2.2.2.2.2
    (by decide) (by decide) (by decide)

/-- C7: on a well-formed document — header and every data row with at
least 5 fields (more are allowed and ignored), numeric `fixedFee` and
`unitRate` — the parse returns exactly one record per data row, in row
order, each record being the trimmed first five fields of its row taken
positionally. -/
theorem parseCSVData_wellformed (doc : Str)
    (h1 : ¬ headerShort doc)
    (h2 : ∀ l ∈ dataLines doc, ¬ rowShort l ∧ ¬ rowNaN l) :
    parseCSVData doc = .ok ((dataLines doc).map extractRow) ∧
    ((dataLines doc).map extractRow).length = (dataLines doc).length := by
  refine ⟨?_, List.length_map _ _⟩
  rw [parseCSVData_eq_parseRows h1, parseRows_ok h2]

/-- Witness for C7: a concrete document with two data rows — one padded
with spaces and a sixth ignored field, one with an empty `infoLink` —
parses to its two extracted records. -/
theorem parseCSVData_wellformed_witness :
    parseCSVData "vendor,plan,fixed,rate,link,extra\n A , B , 2 , 3.5 , L ,junk\nC,D,.5,1e2,".data =
      .ok ((dataLines
        "vendor,plan,fixed,rate,link,extra\n A , B , 2 , 3.5 , L ,junk\nC,D,.5,1e2,".data).map
          extractRow) ∧
    ((dataLines
      "vendor,plan,fixed,rate,link,extra\n A , B , 2 , 3.5 , L ,junk\nC,D,.5,1e2,".data).map
        extractRow).length = 2 :=
  ⟨(parseCSVData_wellformed
      "vendor,plan,fixed,rate,link,extra\n A , B , 2 , 3.5 , L ,junk\nC,D,.5,1e2,".data
      (by decide) (by decide)).1,
   by decide⟩

/-- C10: interior blank lines are not skipped.  An empty line splits to a
single empty field, hence has fewer than 5 columns; if an empty line
occurs among the data lines the parse cannot succeed, and when every
other data line is well-formed it fails with the column-count error for
the entire document; only blank lines at the very start or end are
removed (by the whole-document trim) and tolerated. -/
theorem parseCSVData_blank_interior (doc : Str) :
    (rowValues ([] : Str) = [[]] ∧ rowShort ([] : Str)) ∧
    (([] : Str) ∈ dataLines doc → (parseCSVData doc).isOk = false) ∧
    (([] : Str) ∈ dataLines doc →
      (∀ l ∈ dataLines doc, l = [] ∨ (¬ rowShort l ∧ ¬ rowNaN l)) →
      parseCSVData doc = .error invalidColumnsMsg) ∧
    (∀ s : Str, parseCSVData ('\n' :: s ++ ['\n']) = parseCSVData s) := by
  refine ⟨⟨rfl, by decide⟩, ?_, ?_, ?_⟩
  · intro hm
    by_cases hH : headerShort doc
    · rw [parseCSVData_header_short hH]
      rfl
    · rw [parseCSVData_eq_parseRows hH]
      rcases hP : parseRows (dataLines doc) with e | vs
      · rfl
      · have hgood := (parseRows_isOk_iff.mp (by rw [hP]; rfl) [] hm).1
        exact absurd (by decide) hgood
  · intro hm hall
    by_cases hH : headerShort doc
    · exact parseCSVData_header_short hH
    · rw [parseCSVData_eq_parseRows hH]
      refine parseRows_error_tooFew ?_ ⟨[], hm, Or.inl (by decide)⟩
      intro l hl
      rcases hall l hl with hq | hg
      · rw [hq]
        exact Or.inl (by decide)
      · exact Or.inr hg.2
  · intro s
    have ht : trimStr ('\n' :: s ++ ['\n']) = trimStr s := by
      rw [trimStr_append '\n' ('\n' :: s) (by decide), trimStr_cons '\n' s (by decide)]
    simp only [parseCSVData, ht]

/-- Witness for C10: the document with an empty line between its header
and a well-formed data row is rejected whole with the column-count
error. -/
theorem parseCSVData_blank_interior_witness :
    parseCSVData "a,b,c,d,e\n\nv,p,1,2,l".data = .error invalidColumnsMsg :=
  (parseCSVData_blank_interior "a,b,c,d,e\n\nv,p,1,2,l".data).2.2.1 (by decide) (by decide)

/-! ### Pricing function: rounding -/

/-- Rounding ties toward +∞ (`Math.round`) agrees with rounding ties away
from zero except at negative exact halves: whenever the fractional part is
not 1/2 or the argument is non-negative, the two coincide. -/
theorem jsRound_eq_awayRound (y : ℚ) (h : Int.fract y ≠ 1 / 2 ∨ 0 ≤ y) :
    jsRound y = awayRound y := by
  unfold jsRound awayRound
  rcases le_or_lt 0 y with hy | hy
  · rw [if_pos hy]
  · rw [if_neg (not_le.mpr hy)]
    have hf : Int.fract y ≠ 1 / 2 := h.resolve_right (not_le.mpr hy)
    have h0 : (0 : ℚ) ≤ Int.fract y := Int.fract_nonneg y
    have h1 : Int.fract y < 1 := Int.fract_lt_one y
    have hy2 : y = (⌊y⌋ : ℚ) + Int.fract y := (Int.floor_add_fract y).symm
    rcases lt_or_gt_of_ne hf with hlt | hgt
    · have e1 : ⌊y + 1 / 2⌋ = ⌊y⌋ := by
        rw [Int.floor_eq_iff]
        constructor
        · linarith [Int.floor_le y]
        · linarith
      have e2 : ⌈y - 1 / 2⌉ = ⌊y⌋ := by
        rw [Int.ceil_eq_iff]
        constructor
        · linarith
        · linarith [Int.floor_le y]
      rw [e1, e2]
    · have e1 : ⌊y + 1 / 2⌋ = ⌊y⌋ + 1 := by
        rw [Int.floor_eq_iff]
        constructor
        · push_cast
          linarith
        · push_cast
          linarith
      have e2 : ⌈y - 1 / 2⌉ = ⌊y⌋ + 1 := by
        rw [Int.ceil_eq_iff]
        constructor
        · push_cast
          linarith
        · push_cast
          linarith
      rw [e1, e2]

/-- Counterexample to C1 as stated: at the plan with `fixedFee = -0.125`
and `unitRate = 0`, quantity 0, the code's total is `-0.12` (ties toward
+∞), not the `-0.13` that rounding the scaled integer half away from zero
would give.  The spec's `round2` is therefore not the implemented one. -/
theorem calculatePrice_not_half_away_counterexample :
    (calculatePrice ⟨"v", "p", -0.125, 0, ""⟩ 0).totalPrice = -0.12 ∧
    round2away (((⟨"v", "p", -0.125, 0, ""⟩ : Vendor)).fixedPrice +
        ((⟨"v", "p", -0.125, 0, ""⟩ : Vendor)).kwhPrice * 0) = -0.13 ∧
    (calculatePrice ⟨"v", "p", -0.125, 0, ""⟩ 0).totalPrice ≠
      round2away (((⟨"v", "p", -0.125, 0, ""⟩ : Vendor)).fixedPrice +
        ((⟨"v", "p", -0.125, 0, ""⟩ : Vendor)).kwhPrice * 0) := by
  have harg : ((⟨"v", "p", -0.125, 0, ""⟩ : Vendor)).fixedPrice +
      ((⟨"v", "p", -0.125, 0, ""⟩ : Vendor)).kwhPrice * 0 = (-0.125 : ℚ) := by
    norm_num
  have h1 : (calculatePrice ⟨"v", "p", -0.125, 0, ""⟩ 0).totalPrice = -0.12 := by
    norm_num [calculatePrice, round2, jsRound]
  have h2 : round2away (-0.125 : ℚ) = -0.13 := by
    unfold round2away awayRound
    rw [if_neg (by norm_num)]
    rw [show ((-0.125 : ℚ) * 100 - 1 / 2) = ((-13 : ℤ) : ℚ) by norm_num, Int.ceil_intCast]
    norm_num
  refine ⟨h1, by rw [harg, h2], ?_⟩
  rw [h1, harg, h2]
  norm_num

/-- C1 (amended): `totalCost` is the fixed fee plus rate times quantity,
rounded exactly once — to the final sum, never to intermediate terms — to
2 decimal places on the scaled integer with ties toward +∞ (`Math.round`);
this agrees with the spec's half-away-from-zero rounding except when the
scaled sum is a negative exact half. -/
theorem calculatePrice_totalPrice_round2 (p : Vendor) (kwh : ℚ) :
    (calculatePrice p kwh).totalPrice = round2 (p.fixedPrice + p.kwhPrice * kwh) ∧
    (Int.fract ((p.fixedPrice + p.kwhPrice * kwh) * 100) ≠ 1 / 2 ∨
        0 ≤ p.fixedPrice + p.kwhPrice * kwh →
      (calculatePrice p kwh).totalPrice = round2away (p.fixedPrice + p.kwhPrice * kwh)) := by
  refine ⟨rfl, fun h => ?_⟩
  show round2 _ = round2away _
  unfold round2 round2away
  rw [jsRound_eq_awayRound]
  exact h.imp id (fun hs => mul_nonneg hs (by norm_num))

/-- Witness for C1: the spec's three concrete scenarios, evaluated through
the theorem — the plan with fee 10 and rate 0.15 totals 25 at quantity
100, 10 at quantity 0, and 2.5 at quantity -50 (each sum is non-negative,
discharging the tie-free hypothesis). -/
theorem calculatePrice_totalPrice_round2_witness :
    (calculatePrice ⟨"Demo", "Plan", 10, 0.15, ""⟩ 100).totalPrice = 25 ∧
    (calculatePrice ⟨"Demo", "Plan", 10, 0.15, ""⟩ 0).totalPrice = 10 ∧
    (calculatePrice ⟨"Demo", "Plan", 10, 0.15, ""⟩ (-50)).totalPrice = 2.5 := by
  refine ⟨?_, ?_, ?_⟩
  · exact ((calculatePrice_totalPrice_round2 ⟨"Demo", "Plan", 10, 0.15, ""⟩ 100).2
      (Or.inr (by norm_num))).trans
      (by norm_num [round2away, awayRound])
  · exact ((calculatePrice_totalPrice_round2 ⟨"Demo", "Plan", 10, 0.15, ""⟩ 0).2
      (Or.inr (by norm_num))).trans
      (by norm_num [round2away, awayRound])
  · exact ((calculatePrice_totalPrice_round2 ⟨"Demo", "Plan", 10, 0.15, ""⟩ (-50)).2
      (Or.inr (by norm_num))).trans
      (by norm_num [round2away, awayRound])

/-! ### Pricing function: totality and special values -/

/-- C8: `calculatePrice` on the extended carrier is a total function of its
two arguments (no input constraint, nothing to raise), its total is the
rounded sum exactly as in the finite model, a NaN among the three numeric
operands always yields a NaN total, and infinite inputs combine by the
host's extended arithmetic — in particular an infinite fixed fee with
finite rate and quantity yields the same infinity. -/
theorem calculatePriceNum_special (v : NumVendor) (kwh : JSNum) :
    (calculatePriceNum v kwh).totalPrice =
      jsRound2Num (jsAdd v.fixedPrice (jsMul v.kwhPrice kwh)) ∧
    (v.fixedPrice = .nan ∨ v.kwhPrice = .nan ∨ kwh = .nan →
      (calculatePriceNum v kwh).totalPrice = .nan) ∧
    (∀ q r : ℚ, v.kwhPrice = .finite r → kwh = .finite q →
      (v.fixedPrice = .posinf → (calculatePriceNum v kwh).totalPrice = .posinf) ∧
      (v.fixedPrice = .neginf → (calculatePriceNum v kwh).totalPrice = .neginf)) := by
  refine ⟨rfl, fun h => ?_, fun q r hr hq => ?_⟩
  · show jsRound2Num (jsAdd v.fixedPrice (jsMul v.kwhPrice kwh)) = .nan
    rcases h with h | h | h
    · rw [h]
      cases jsMul v.kwhPrice kwh <;> rfl
    · rw [h]
      cases kwh <;> cases v.fixedPrice <;> rfl
    · rw [h]
      cases v.kwhPrice <;> cases v.fixedPrice <;> rfl
  · constructor <;> intro hf <;>
      show jsRound2Num (jsAdd v.fixedPrice (jsMul v.kwhPrice kwh)) = _ <;>
      rw [hf, hr, hq] <;> rfl

/-- Witness for C8: a NaN fixed fee propagates to a NaN total, and an
infinite fixed fee with finite rate and quantity yields an infinite
total. -/
theorem calculatePriceNum_special_witness :
    (calculatePriceNum ⟨"v", "p", .nan, .finite 1, ""⟩ (.finite 100)).totalPrice = .nan ∧
    (calculatePriceNum ⟨"v", "p", .posinf, .finite 1, ""⟩ (.finite 100)).totalPrice = .posinf :=
  ⟨(calculatePriceNum_special ⟨"v", "p", .nan, .finite 1, ""⟩ (.finite 100)).2.1 (Or.inl rfl),
   ((calculatePriceNum_special ⟨"v", "p", .posinf, .finite 1, ""⟩ (.finite 100)).2.2
      100 1 rfl rfl).1 rfl⟩

end PriceCompare
